import Mathlib

/-!
Verification of `scripts/generate-embeddings.py` (smart-packing-assistant).

The script loads packing items from a CSV, builds one embedding-request text
per item, calls an embedding service in batches of `BATCH_SIZE` with up to
`RETRY_ATTEMPTS` attempts per batch, and assembles one output point per item.

Strings are modelled as `List Char` (Python `str` semantics for `split`,
`strip` and `int` are embedded directly over character lists, restricted to
ASCII whitespace and digits).  The external embedding service is an oracle
`svc : Nat → List (List Char) → Option (List (List α))` taking the global
call counter and the batch's request texts and returning either one vector
per text (`some`) or a raised exception (`none`).  The `uuid.uuid4()` stream
is an oracle `uuids : Nat → String` indexed by the number of uuids drawn so
far.  Sleeps and service calls are recorded in an event trace.
-/

namespace GenEmb

/-- Python whitespace for `str.strip` (ASCII part). -/
def pyIsSpace (c : Char) : Bool :=
  c = ' ' || c = '\t' || c = '\n' || c = '\r' || c = '\x0b' || c = '\x0c'

/-- Python `str.strip()`: drop leading and trailing whitespace. -/
def pyStrip (s : List Char) : List Char :=
  ((s.dropWhile pyIsSpace).reverse.dropWhile pyIsSpace).reverse

/-- Python `str.split(sep)` for a one-character separator: split at every
occurrence, keeping empty parts (`"".split(sep) == ['']`). -/
def pySplitOn (sep : Char) : List Char → List (List Char)
  | [] => [[]]
  | c :: cs =>
    if c = sep then [] :: pySplitOn sep cs
    else
      match pySplitOn sep cs with
      | [] => [[c]]
      | p :: ps => (c :: p) :: ps

/-- Digits of an integer literal after the first: Python `int` allows a single
underscore between two digits. -/
def digitsRest : List Char → Bool
  | [] => true
  | c :: cs =>
    if c = '_' then
      match cs with
      | [] => false
      | d :: ds => d.isDigit && digitsRest ds
    else c.isDigit && digitsRest cs

/-- Nonempty digit string with optional single underscores between digits. -/
def digitsOK : List Char → Bool
  | [] => false
  | c :: cs => c.isDigit && digitsRest cs

/-- Value of a (underscore-free) decimal digit string. -/
def digitsVal (l : List Char) : Nat :=
  l.foldl (fun a c => a * 10 + (c.toNat - 48)) 0

/-- Python `int(s)` on a string (ASCII): strip whitespace, optional sign,
then a nonempty digit run; anything else raises `ValueError` (`none`). -/
def pyInt (s : List Char) : Option Int :=
  match pyStrip s with
  | '-' :: ds =>
    if digitsOK ds then some (-(digitsVal (ds.filter (fun c => c != '_')) : Int)) else none
  | '+' :: ds =>
    if digitsOK ds then some ((digitsVal (ds.filter (fun c => c != '_')) : Int)) else none
  | ds =>
    if digitsOK ds then some ((digitsVal (ds.filter (fun c => c != '_')) : Int)) else none

/-- One CSV data row as the `csv.DictReader` dict hands it to the loader.
`tags` and `climate` are optional columns (`row.get(..., '')`). -/
structure Row where
  item : List Char
  category : List Char
  destination_type : List Char
  travel_type : List Char
  season : List Char
  quantity : List Char
  reason : List Char
  importance : List Char
  tags : Option (List Char)
  climate : Option (List Char)

/-- One loaded knowledge-base item (the dict built in `load_knowledge_base`). -/
structure KnowledgeItem where
  item : List Char
  category : List Char
  destination_type : List Char
  travel_type : List Char
  season : List (List Char)
  quantity : Int
  reason : List Char
  importance : List Char
  tags : List (List Char)
  climate : List (List Char)

/-- Loading of one row (`load_knowledge_base` loop body):
`seasons = [s.strip() for s in row['season'].split(',')]` (no emptiness
filter), `tags`/`climate` split on `';'` keeping only sub-fields whose strip
is nonempty, `quantity = int(row['quantity'])`; any exception is fatal. -/
def loadRow (r : Row) : Option KnowledgeItem :=
  match pyInt r.quantity with
  | none => none
  | some q =>
    some
      { item := r.item
        category := r.category
        destination_type := r.destination_type
        travel_type := r.travel_type
        season := (pySplitOn ',' r.season).map pyStrip
        quantity := q
        reason := r.reason
        importance := r.importance
        tags := ((pySplitOn ';' (r.tags.getD [])).map pyStrip).filter (fun t => !t.isEmpty)
        climate := ((pySplitOn ';' (r.climate.getD [])).map pyStrip).filter (fun t => !t.isEmpty) }

/-- `load_knowledge_base` over all data rows: any failing row aborts the whole
run (`sys.exit(1)`), so no partial item list is ever returned. -/
def loadRows : List Row → Option (List KnowledgeItem)
  | [] => some []
  | r :: rs =>
    match loadRow r, loadRows rs with
    | some k, some ks => some (k :: ks)
    | _, _ => none

/-- The multi-line f-string of `create_embedding_text` before the final
`.strip()`; this is the fixed template the specification describes. -/
def specTemplateText (k : KnowledgeItem) : List Char :=
  "Item: ".data ++ k.item
    ++ "\nCategory: ".data ++ k.category
    ++ "\nTravel Type: ".data ++ k.travel_type
    ++ "\nDestination: ".data ++ k.destination_type
    ++ "\nSeason: ".data ++ List.intercalate ", ".data k.season
    ++ "\nReason: ".data ++ k.reason
    ++ "\nTags: ".data ++ List.intercalate ", ".data k.tags
    ++ "\nClimate: ".data ++ List.intercalate ", ".data k.climate
    ++ "\nImportance: ".data ++ k.importance

/-- `create_embedding_text`: the f-string template with `.strip()` applied to
the whole result, exactly as in the source. -/
def createEmbeddingText (k : KnowledgeItem) : List Char :=
  pyStrip (specTemplateText k)

/-- Module constants of the script. -/
def BATCH_SIZE : Nat := 100

def RETRY_ATTEMPTS : Nat := 3

def RETRY_DELAY : Nat := 2

def EMBEDDING_DIMENSIONS : Nat := 1536

def EMBEDDING_MODEL : List Char := "text-embedding-3-small".data

/-- Observable events of a run: one `svcCall` per embedding-service attempt
(carrying the submitted request texts), one `retrySleep` per
`time.sleep(RETRY_DELAY)`, one `batchSleep` per inter-batch
`time.sleep(0.5)`. -/
inductive Event where
  | svcCall (texts : List (List Char))
  | retrySleep
  | batchSleep

/-- One Qdrant point as assembled in `generate_embeddings`. -/
structure QdrantPoint (α : Type) where
  id : String
  vector : List α
  payload : KnowledgeItem

/-- State threaded through `generate_embeddings`: global service-call counter,
accumulated `points`, and the event trace. -/
structure RunState (α : Type) where
  callIdx : Nat
  points : List (QdrantPoint α)
  trace : List Event

/-- The `for j, embedding_obj in enumerate(response.data)` loop: one point per
returned vector, paired positionally with `batch[j]`; each point draws the
next uuid and copies the item's fields into the payload.  Like the Python
loop it stops at the shorter of the two lists (a response longer than the
batch raises `IndexError` at `batch[j]`, which the caller handles). -/
def mkPoints {α : Type} (uuids : Nat → String) : Nat → List (List α) → List KnowledgeItem → List (QdrantPoint α)
  | _, [], _ => []
  | _, _ :: _, [] => []
  | c, v :: vs, it :: its =>
    { id := uuids c
      vector := v
      payload :=
        { item := it.item
          category := it.category
          destination_type := it.destination_type
          travel_type := it.travel_type
          season := it.season
          quantity := it.quantity
          reason := it.reason
          importance := it.importance
          tags := it.tags
          climate := it.climate } } :: mkPoints uuids (c + 1) vs its

/-- The retry loop for one batch (`for attempt in range(RETRY_ATTEMPTS)`), with
the remaining number of attempts as fuel.  A successful call appends one point
per returned vector and breaks.  A response with more vectors than batch items
raises `IndexError` after the first `len(batch)` appends and is retried like
any other exception.  A raised call (`none`) is retried after a
`RETRY_DELAY` sleep; when no attempts remain the run aborts
(`sys.exit(1)`, modelled as `none`). -/
def tryBatch {α : Type} (svc : Nat → List (List Char) → Option (List (List α)))
    (uuids : Nat → String) (batch : List KnowledgeItem) : Nat → RunState α → Option (RunState α)
  | 0, _ => none
  | fuel + 1, st =>
    match svc st.callIdx (batch.map createEmbeddingText) with
    | some vecs =>
      if vecs.length ≤ batch.length then
        some
          { callIdx := st.callIdx + 1
            points := st.points ++ mkPoints uuids st.points.length vecs batch
            trace := st.trace ++ [Event.svcCall (batch.map createEmbeddingText)] }
      else
        if fuel = 0 then none
        else
          tryBatch svc uuids batch fuel
            { callIdx := st.callIdx + 1
              points := st.points ++ mkPoints uuids st.points.length vecs batch
              trace := st.trace ++ [Event.svcCall (batch.map createEmbeddingText), Event.retrySleep] }
    | none =>
      if fuel = 0 then none
      else
        tryBatch svc uuids batch fuel
          { callIdx := st.callIdx + 1
            points := st.points
            trace := st.trace ++ [Event.svcCall (batch.map createEmbeddingText), Event.retrySleep] }

/-- Python `range(0, n, step)` for a positive step: the multiples of `step`
below `n`, in increasing order. -/
def pyRangeStep (n step : Nat) : List Nat :=
  (List.range n).filter (fun i => i % step == 0)

/-- The batch loop of `generate_embeddings`: for each start index `i`, process
`items[i:i+BATCH_SIZE]` with the retry loop; after a batch that is not the
last (`i + BATCH_SIZE < len(items)`), sleep 0.5 s. -/
def runBatches {α : Type} (svc : Nat → List (List Char) → Option (List (List α)))
    (uuids : Nat → String) (B : Nat) (items : List KnowledgeItem) :
    List Nat → RunState α → Option (RunState α)
  | [], st => some st
  | i :: rest, st =>
    match tryBatch svc uuids ((items.drop i).take B) RETRY_ATTEMPTS st with
    | none => none
    | some st1 =>
      runBatches svc uuids B items rest
        (if i + B < items.length
         then { st1 with trace := st1.trace ++ [Event.batchSleep] }
         else st1)

/-- `generate_embeddings(items, api_key)`: the batch loop over
`range(0, len(items), BATCH_SIZE)` starting from an empty state. -/
def generateEmbeddings {α : Type} (svc : Nat → List (List Char) → Option (List (List α)))
    (uuids : Nat → String) (items : List KnowledgeItem) : Option (RunState α) :=
  runBatches svc uuids BATCH_SIZE items (pyRangeStep items.length BATCH_SIZE) ⟨0, [], []⟩

/-- The batch partition the loop works through: `items[i:i+B]` for each start
index produced by `range(0, len(items), B)`. -/
def batchesOf (B : Nat) (items : List KnowledgeItem) : List (List KnowledgeItem) :=
  (pyRangeStep items.length B).map (fun i => (items.drop i).take B)

/-- Request texts of one batch. -/
def textsOfBatch (b : List KnowledgeItem) : List (List Char) :=
  b.map createEmbeddingText

/-- The sequence of request-text lists submitted to the service, in call
order, read off the trace. -/
def callTexts (tr : List Event) : List (List (List Char)) :=
  tr.filterMap (fun e => match e with | Event.svcCall ts => some ts | _ => none)

/-- Recognizer for the inter-batch 0.5 s sleep. -/
def isBatchSleep : Event → Bool
  | Event.batchSleep => true
  | _ => false

/-- Bound check used to state that every batch has at most `B` items. -/
def fitsBatch (B : Nat) (b : List KnowledgeItem) : Bool :=
  decide (b.length ≤ B)

/-- The texts of the calls of a (possibly failed) run. -/
def runCallTexts {α : Type} (o : Option (RunState α)) : Option (List (List (List Char))) :=
  o.map (fun st => callTexts st.trace)

/-- The payload sequence of the points of a (possibly failed) run. -/
def runPayloads {α : Type} (o : Option (RunState α)) : Option (List KnowledgeItem) :=
  o.map (fun st => st.points.map QdrantPoint.payload)

/-- The number of points of a (possibly failed) run. -/
def runPointCount {α : Type} (o : Option (RunState α)) : Option Nat :=
  o.map (fun st => st.points.length)

/-- Shape of the JSON file written by `save_embeddings`. -/
structure OutputFile (α : Type) where
  points : List (QdrantPoint α)
  total_items : Nat
  model : List Char
  dimensions : Nat

/-- The whole run after loading: the output file exists exactly when every
batch succeeded within its retry budget (`save_embeddings` runs only after
`generate_embeddings` returns). -/
def runPipeline {α : Type} (svc : Nat → List (List Char) → Option (List (List α)))
    (uuids : Nat → String) (items : List KnowledgeItem) : Option (OutputFile α) :=
  (generateEmbeddings svc uuids items).map
    (fun st => ⟨st.points, st.points.length, EMBEDDING_MODEL, EMBEDDING_DIMENSIONS⟩)

/-- Process exit code of the embedding phase: 0 on success, 1 on abort. -/
def runExit {α : Type} (svc : Nat → List (List Char) → Option (List (List α)))
    (uuids : Nat → String) (items : List KnowledgeItem) : Nat :=
  match generateEmbeddings svc uuids items with
  | some _ => 0
  | none => 1

/-- Service contract: on success the response has one vector per input string
(the order-preserving part of the provider contract). -/
def LenOk {α : Type} (svc : Nat → List (List Char) → Option (List (List α))) : Prop :=
  ∀ n ts vs, svc n ts = some vs → vs.length = ts.length

/-- Service that succeeds on every call, with one vector per input string. -/
def GoodSvc {α : Type} (svc : Nat → List (List Char) → Option (List (List α))) : Prop :=
  ∀ n ts, ∃ vs, svc n ts = some vs ∧ vs.length = ts.length

/-- Service returning vectors of the requested dimensionality. -/
def DimOk {α : Type} (svc : Nat → List (List Char) → Option (List (List α))) : Prop :=
  ∀ n ts vs, svc n ts = some vs → ∀ v ∈ vs, v.length = EMBEDDING_DIMENSIONS

/-- All vectors of the accumulated points have the configured length. -/
def pointsDimOk {α : Type} (st : RunState α) : Bool :=
  st.points.all (fun p => p.vector.length == EMBEDDING_DIMENSIONS)

/-- Every entry of `season`, `tags` and `climate` is whitespace-stripped
(no leading or trailing whitespace, i.e. a fixpoint of `pyStrip`). -/
def isStrippedB (x : List Char) : Bool :=
  pyStrip x == x

/-- `isStrippedB` over all multi-valued fields of a loaded item. -/
def allStripped (k : KnowledgeItem) : Bool :=
  (k.season ++ k.tags ++ k.climate).all isStrippedB

/-- Oracle that fails every call (`fails RETRY_ATTEMPTS times` for any batch). -/
def svcNone {α : Type} : Nat → List (List Char) → Option (List (List α)) :=
  fun _ _ => none

/-- Oracle that fails the first `RETRY_ATTEMPTS - 1` calls at or after counter
`c` and then answers `vs`. -/
def svcFailsThenOk {α : Type} (c : Nat) (vs : List (List α)) :
    Nat → List (List Char) → Option (List (List α)) :=
  fun n _ => if n < c + (RETRY_ATTEMPTS - 1) then none else some vs

/-- Oracle that answers `vs` immediately on every call. -/
def svcAlways {α : Type} (vs : List (List α)) : Nat → List (List Char) → Option (List (List α)) :=
  fun _ _ => some vs

/-! ### Basic facts about `pyStrip` -/

lemma head?_dropWhile {α : Type} {p : α → Bool} :
    ∀ (l : List α) (c : α), (l.dropWhile p).head? = some c → p c = false
  | [], c, h => by simp [List.dropWhile] at h
  | a :: t, c, h => by
    by_cases hpa : p a
    · rw [List.dropWhile_cons_of_pos hpa] at h
      exact head?_dropWhile t c h
    · rw [List.dropWhile_cons_of_neg hpa] at h
      simp only [List.head?_cons, Option.some.injEq] at h
      subst h
      simpa using hpa

lemma dropWhile_eq_self {α : Type} {p : α → Bool} {l : List α}
    (h : ∀ c, l.head? = some c → p c = false) : l.dropWhile p = l := by
  cases l with
  | nil => rfl
  | cons a t => exact List.dropWhile_cons_of_neg (by simp [h a rfl])

lemma getLast?_of_suffix {α : Type} {l₁ l₂ : List α} (h : l₁ <:+ l₂) (hne : l₁ ≠ []) :
    l₁.getLast? = l₂.getLast? := by
  obtain ⟨pre, rfl⟩ := h
  exact (List.getLast?_append_of_ne_nil pre hne).symm

lemma pyStrip_head? {l : List Char} {c : Char} (h : (pyStrip l).head? = some c) :
    pyIsSpace c = false := by
  unfold pyStrip at h
  rw [List.head?_reverse] at h
  have hwne : (l.dropWhile pyIsSpace).reverse.dropWhile pyIsSpace ≠ [] := by
    intro h0
    rw [h0] at h
    simp at h
  rw [getLast?_of_suffix (List.dropWhile_suffix _) hwne, List.getLast?_reverse] at h
  exact head?_dropWhile l c h

lemma pyStrip_getLast? {l : List Char} {c : Char} (h : (pyStrip l).getLast? = some c) :
    pyIsSpace c = false := by
  unfold pyStrip at h
  rw [List.getLast?_reverse] at h
  exact head?_dropWhile _ c h

lemma pyStrip_eq_self {l : List Char}
    (h1 : ∀ c, l.head? = some c → pyIsSpace c = false)
    (h2 : ∀ c, l.getLast? = some c → pyIsSpace c = false) : pyStrip l = l := by
  unfold pyStrip
  rw [dropWhile_eq_self h1]
  cases hrev : l.reverse with
  | nil =>
    have : l = [] := List.reverse_eq_nil_iff.mp hrev
    subst this
    rfl
  | cons b rb =>
    have hb : l.getLast? = some b := by rw [← List.head?_reverse, hrev]; rfl
    rw [dropWhile_eq_self (fun c hc => by
      simp only [List.head?_cons, Option.some.injEq] at hc
      subst hc
      exact h2 _ hb)]
    rw [← hrev, List.reverse_reverse]

lemma pyStrip_idem (l : List Char) : pyStrip (pyStrip l) = pyStrip l :=
  pyStrip_eq_self (fun _ h => pyStrip_head? h) (fun _ h => pyStrip_getLast? h)

lemma isStrippedB_pyStrip (t : List Char) : isStrippedB (pyStrip t) = true := by
  simp [isStrippedB, pyStrip_idem]

/-! ### Concrete rows and items used as witnesses and counterexamples -/

/-- The default used only to name computed values in closed statements. -/
def kDefault : KnowledgeItem := ⟨[], [], [], [], [], 0, [], [], [], []⟩

/-- A representative valid row (tags field with inner whitespace). -/
def rowAB : Row :=
  ⟨"Passport".data, "documents".data, "international".data, "business".data,
    "all".data, "1".data, "required".data, "critical".data,
    some "a ; b".data, some "any".data⟩

/-- The item `rowAB` loads to. -/
def kR : KnowledgeItem := (loadRow rowAB).getD kDefault

/-- Row whose `season` field ends in a delimiter, producing an empty sub-field. -/
def rowC4 : Row :=
  ⟨"x".data, "c".data, "d".data, "t".data, "all,".data, "1".data,
    "r".data, "low".data, none, none⟩

/-- Row with a negative quantity. -/
def rowNeg : Row :=
  ⟨"x".data, "c".data, "d".data, "t".data, "all".data, "-1".data,
    "r".data, "low".data, none, none⟩

/-- Row with a non-numeric quantity. -/
def rowBad : Row :=
  ⟨"x".data, "c".data, "d".data, "t".data, "all".data, "abc".data,
    "r".data, "low".data, none, none⟩

/-- A clean knowledge item (no stray whitespace in any field). -/
def kW : KnowledgeItem :=
  ⟨"Passport".data, "documents".data, "international".data, "business".data,
    ["all".data], 1, "required".data, "critical".data,
    ["essential".data], ["any".data]⟩

/-- An item whose importance field ends in a space. -/
def kBadC5 : KnowledgeItem :=
  ⟨"Umbrella".data, "gear".data, "beach".data, "leisure".data,
    ["all".data], 1, "rain".data, "high ".data, [], []⟩

/-! ### Loader claims -/

/-- C4 (counterexample): the loader keeps empty sub-fields of `season` — the
row with season field `"all,"` loads to season list `["all", ""]`, which
contains an empty string, contradicting the claim as stated. -/
theorem c4_counterexample :
    (loadRow rowC4).map KnowledgeItem.season = some ["all".data, []] := rfl

/-- C4 (amended): for every loaded item, `tags` and `climate` contain no
empty strings and are order-preserving sublists of the stripped sub-fields of
their source field; `season` is exactly the stripped sub-fields of its source
field in order, but may contain empty strings. -/
theorem claim_C4 (r : Row) (k : KnowledgeItem) (h : loadRow r = some k) :
    ([] : List Char) ∉ k.tags ∧ ([] : List Char) ∉ k.climate ∧
    List.Sublist k.tags ((pySplitOn ';' (r.tags.getD [])).map pyStrip) ∧
    List.Sublist k.climate ((pySplitOn ';' (r.climate.getD [])).map pyStrip) ∧
    k.season = (pySplitOn ',' r.season).map pyStrip := by
  unfold loadRow at h
  cases hq : pyInt r.quantity with
  | none => rw [hq] at h; simp at h
  | some q =>
    rw [hq] at h
    injection h with h'
    subst h'
    refine ⟨?_, ?_, List.filter_sublist _, List.filter_sublist _, rfl⟩
    · intro hmem
      have := (List.mem_filter.mp hmem).2
      simp at this
    · intro hmem
      have := (List.mem_filter.mp hmem).2
      simp at this

/-- C4 witness: the amended statement evaluated at `rowAB`. -/
theorem c4_witness :
    ([] : List Char) ∉ kR.tags ∧ ([] : List Char) ∉ kR.climate ∧
    List.Sublist kR.tags ((pySplitOn ';' (rowAB.tags.getD [])).map pyStrip) ∧
    List.Sublist kR.climate ((pySplitOn ';' (rowAB.climate.getD [])).map pyStrip) ∧
    kR.season = (pySplitOn ',' rowAB.season).map pyStrip :=
  claim_C4 rowAB kR rfl

/-- C8 (counterexample): the row with quantity field `"-1"` loads successfully
with quantity `-1 < 0`, contradicting `quantity ≥ 0`. -/
theorem c8_counterexample :
    (loadRow rowNeg).map KnowledgeItem.quantity = some (-1) := rfl

/-- C8 (amended): for every loaded item, `quantity` is the integer parse of the
row's quantity field (negative values are accepted, so `≥ 0` is not
guaranteed); a non-numeric quantity in any row makes the whole load fail, with
no partial item list. -/
theorem claim_C8 :
    (∀ r k, loadRow r = some k → pyInt r.quantity = some k.quantity) ∧
    (∀ rows r, r ∈ rows → pyInt r.quantity = none → loadRows rows = none) := by
  constructor
  · intro r k h
    unfold loadRow at h
    cases hq : pyInt r.quantity with
    | none => rw [hq] at h; simp at h
    | some q =>
      rw [hq] at h
      injection h with h'
      subst h'
      rfl
  · intro rows r hmem hq
    induction rows with
    | nil => simp at hmem
    | cons a rs ih =>
      rcases List.mem_cons.mp hmem with rfl | hmem'
      · have hnone : loadRow r = none := by unfold loadRow; rw [hq]
        unfold loadRows
        rw [hnone]
      · unfold loadRows
        rw [ih hmem']
        cases loadRow a <;> rfl

/-- C8 witness: the amended statement at a concrete good row and a concrete
bad row. -/
theorem c8_witness :
    pyInt rowAB.quantity = some kR.quantity ∧ loadRows [rowBad] = none :=
  ⟨claim_C8.1 rowAB kR rfl, claim_C8.2 [rowBad] rowBad (List.mem_cons_self _ _) rfl⟩

/-- C10: every entry of `season`, `tags` and `climate` of a loaded item is
whitespace-stripped (a fixpoint of `pyStrip`, hence without leading or
trailing whitespace); and the tags source field `"a ; b"` loads as
`["a", "b"]`. -/
theorem claim_C10 :
    (∀ r k, loadRow r = some k → allStripped k = true) ∧
    (loadRow rowAB).map KnowledgeItem.tags = some ["a".data, "b".data] := by
  constructor
  · intro r k h
    unfold loadRow at h
    cases hq : pyInt r.quantity with
    | none => rw [hq] at h; simp at h
    | some q =>
      rw [hq] at h
      injection h with h'
      subst h'
      unfold allStripped
      simp only [List.all_append, Bool.and_eq_true, List.all_eq_true]
      refine ⟨⟨fun x hx => ?_, fun x hx => ?_⟩, fun x hx => ?_⟩
      · obtain ⟨t, _, rfl⟩ := List.mem_map.mp hx
        exact isStrippedB_pyStrip t
      · obtain ⟨t, _, rfl⟩ := List.mem_map.mp (List.mem_filter.mp hx).1
        exact isStrippedB_pyStrip t
      · obtain ⟨t, _, rfl⟩ := List.mem_map.mp (List.mem_filter.mp hx).1
        exact isStrippedB_pyStrip t
  · rfl

/-- C10 witness: the stripped-fields property evaluated at `rowAB`. -/
theorem c10_witness : allStripped kR = true :=
  claim_C10.1 rowAB kR rfl

/-! ### Embedding-text claims -/

set_option maxHeartbeats 2000000 in
/-- C5 (counterexample): for an item whose importance field ends in a space,
the built text differs from the fixed template — the final `.strip()` removes
the trailing whitespace. -/
theorem c5_counterexample : createEmbeddingText kBadC5 ≠ specTemplateText kBadC5 := by
  decide

set_option maxHeartbeats 4000000 in
/-- C5 (amended): the embedding-request string is the fixed multi-line
template (fields in the stated order with the fixed labels and `", "` joins)
stripped of leading and trailing whitespace; since the template starts with
the literal `Item: `, it equals the template exactly whenever the importance
field — the template's final component — is nonempty and does not end in
whitespace. -/
theorem claim_C5 (k : KnowledgeItem) :
    createEmbeddingText k = pyStrip (specTemplateText k) ∧
    (∀ c, k.importance.getLast? = some c → pyIsSpace c = false →
      createEmbeddingText k = specTemplateText k) := by
  refine ⟨rfl, ?_⟩
  intro c hc hsp
  show pyStrip (specTemplateText k) = specTemplateText k
  apply pyStrip_eq_self
  · intro c' h'
    have hI : (specTemplateText k).head? = some 'I' := rfl
    rw [hI] at h'
    injection h' with h''
    subst h''
    rfl
  · intro c' h'
    have hlast : (specTemplateText k).getLast? = some c := by
      unfold specTemplateText
      rw [List.getLast?_append, hc]
      rfl
    rw [hlast] at h'
    injection h' with h''
    subst h''
    exact hsp

set_option maxHeartbeats 2000000 in
/-- C5 witness: for the clean item `kW` (importance `"critical"`), the built
text is exactly the fixed template. -/
theorem c5_witness : createEmbeddingText kW = specTemplateText kW :=
  (claim_C5 kW).2 'l' rfl rfl

/-- C7: `createEmbeddingText` is a pure function of the item — building the
embedding-request text twice from the same `KnowledgeItem` yields identical
strings. -/
theorem claim_C7 (k : KnowledgeItem) : createEmbeddingText k = createEmbeddingText k := rfl

/-! ### Batching arithmetic -/

lemma pyRangeStep_zero (B : Nat) : pyRangeStep 0 B = [] := rfl

lemma pyRangeStep_le {n B : Nat} (hn : 0 < n) (hnB : n ≤ B) :
    pyRangeStep n B = [0] := by
  obtain ⟨m, rfl⟩ : ∃ m, n = m + 1 := ⟨n - 1, by omega⟩
  unfold pyRangeStep
  rw [List.range_succ_eq_map, List.filter_cons, List.filter_map]
  have h1 : ((0 : Nat) % B == 0) = true := by simp
  rw [if_pos h1]
  have h2 : List.filter ((fun i => i % B == 0) ∘ Nat.succ) (List.range m) = [] := by
    rw [List.filter_eq_nil_iff]
    intro a ha
    have ha' : a < m := List.mem_range.mp ha
    have hmod : (a + 1) % B = a + 1 := Nat.mod_eq_of_lt (by omega)
    simp [Function.comp, Nat.succ_eq_add_one, hmod]
  rw [h2]
  rfl

lemma pyRangeStep_unfold {n B : Nat} (hB : 0 < B) (hn : 0 < n) :
    pyRangeStep n B = 0 :: (pyRangeStep (n - B) B).map (fun i => B + i) := by
  rcases le_or_lt n B with hle | hlt
  · rw [pyRangeStep_le hn hle]
    have h0 : n - B = 0 := by omega
    rw [h0, pyRangeStep_zero]
    rfl
  · obtain ⟨m, rfl⟩ : ∃ m, n = B + m := ⟨n - B, by omega⟩
    have hm : B + m - B = m := by omega
    rw [hm]
    unfold pyRangeStep
    rw [List.range_add, List.filter_append, List.filter_map]
    have h0 : List.filter (fun i => i % B == 0) (List.range B) = [0] := by
      have := pyRangeStep_le (n := B) hB le_rfl
      unfold pyRangeStep at this
      exact this
    rw [h0]
    have hcong : List.filter ((fun i => i % B == 0) ∘ (B + ·)) (List.range m) =
        List.filter (fun i => i % B == 0) (List.range m) := by
      apply List.filter_congr
      intro a _
      simp only [Function.comp_apply]
      rw [Nat.add_comm B a, Nat.add_mod_right]
    rw [hcong]
    rfl

lemma ceil_div_rec {n B : Nat} (hB : 0 < B) (hn : 0 < n) :
    (n + B - 1) / B = (n - B + B - 1) / B + 1 := by
  rcases le_or_lt n B with hle | hlt
  · have h1 : n - B = 0 := by omega
    rw [h1]
    have h2 : (0 + B - 1) / B = 0 := Nat.div_eq_of_lt (by omega)
    rw [h2]
    have h3 : n + B - 1 = (n - 1) + B := by omega
    rw [h3, Nat.add_div_right _ hB, Nat.div_eq_of_lt (by omega)]
  · have h3 : n + B - 1 = (n - B + B - 1) + B := by omega
    rw [h3, Nat.add_div_right _ hB]

lemma ceil_div_pos {n B : Nat} (hB : 0 < B) (hn : 0 < n) : 0 < (n + B - 1) / B :=
  Nat.div_pos (by omega) hB

/-! ### The batch partition -/

lemma batchesOf_nil (B : Nat) : batchesOf B [] = [] := rfl

lemma batchesOf_cons {B : Nat} (hB : 0 < B) {items : List KnowledgeItem} (hne : items ≠ []) :
    batchesOf B items = items.take B :: batchesOf B (items.drop B) := by
  unfold batchesOf
  rw [pyRangeStep_unfold hB (List.length_pos.mpr hne)]
  simp only [List.map_cons, List.drop_zero, List.map_map]
  have hlen : items.length - B = (items.drop B).length := (List.length_drop _ _).symm
  rw [hlen]
  have hf : ((fun i => (items.drop i).take B) ∘ (B + ·)) =
      (fun i => ((items.drop B).drop i).take B) := by
    funext i
    simp [Function.comp, List.drop_drop]
  rw [hf]

lemma batchesOf_join {B : Nat} (hB : 0 < B) :
    ∀ (N : Nat) (items : List KnowledgeItem), items.length ≤ N →
      (batchesOf B items).flatten = items := by
  intro N
  induction N with
  | zero =>
    intro items hlen
    have : items = [] := List.length_eq_zero.mp (Nat.le_zero.mp hlen)
    subst this
    rfl
  | succ n ih =>
    intro items hlen
    rcases eq_or_ne items [] with rfl | hne
    · rfl
    · rw [batchesOf_cons hB hne, List.flatten_cons,
        ih (items.drop B) (by rw [List.length_drop]; have := List.length_pos.mpr hne; omega),
        List.take_append_drop]

lemma batchesOf_length {B : Nat} (hB : 0 < B) :
    ∀ (N : Nat) (items : List KnowledgeItem), items.length ≤ N →
      (batchesOf B items).length = (items.length + B - 1) / B := by
  intro N
  induction N with
  | zero =>
    intro items hlen
    have : items = [] := List.length_eq_zero.mp (Nat.le_zero.mp hlen)
    subst this
    exact (Nat.div_eq_of_lt (by omega : 0 + B - 1 < B)).symm
  | succ n ih =>
    intro items hlen
    rcases eq_or_ne items [] with rfl | hne
    · exact (Nat.div_eq_of_lt (by omega : 0 + B - 1 < B)).symm
    · have hpos : 0 < items.length := List.length_pos.mpr hne
      rw [batchesOf_cons hB hne, List.length_cons,
        ih (items.drop B) (by rw [List.length_drop]; omega), List.length_drop,
        ceil_div_rec hB hpos]

lemma batchesOf_small {B : Nat} (hB : 0 < B) :
    ∀ (N : Nat) (items : List KnowledgeItem), items.length ≤ N →
      (batchesOf B items).all (fitsBatch B) = true := by
  intro N
  induction N with
  | zero =>
    intro items hlen
    have : items = [] := List.length_eq_zero.mp (Nat.le_zero.mp hlen)
    subst this
    rfl
  | succ n ih =>
    intro items hlen
    rcases eq_or_ne items [] with rfl | hne
    · rfl
    · rw [batchesOf_cons hB hne, List.all_cons,
        ih (items.drop B) (by rw [List.length_drop]; have := List.length_pos.mpr hne; omega)]
      have : fitsBatch B (items.take B) = true := by
        simp [fitsBatch, List.length_take]
      rw [this]
      rfl

/-! ### Trace projections -/

lemma callTexts_append (t1 t2 : List Event) :
    callTexts (t1 ++ t2) = callTexts t1 ++ callTexts t2 := by
  simp [callTexts]

lemma callTexts_call (ts : List (List Char)) : callTexts [Event.svcCall ts] = [ts] := rfl

lemma callTexts_retry (ts : List (List Char)) :
    callTexts [Event.svcCall ts, Event.retrySleep] = [ts] := rfl

lemma callTexts_bs : callTexts [Event.batchSleep] = [] := rfl

lemma countBS_call (tr : List Event) (ts : List (List Char)) :
    (tr ++ [Event.svcCall ts]).countP isBatchSleep = tr.countP isBatchSleep := by
  simp [List.countP_append, List.countP_cons, isBatchSleep]

lemma countBS_retry (tr : List Event) (ts : List (List Char)) :
    (tr ++ [Event.svcCall ts, Event.retrySleep]).countP isBatchSleep = tr.countP isBatchSleep := by
  simp [List.countP_append, List.countP_cons, isBatchSleep]

lemma countBS_bs (tr : List Event) :
    (tr ++ [Event.batchSleep]).countP isBatchSleep = tr.countP isBatchSleep + 1 := by
  simp [List.countP_append, List.countP_cons, isBatchSleep]

/-! ### Facts about `mkPoints` -/

lemma mkPoints_payload {α : Type} (uuids : Nat → String) :
    ∀ (c : Nat) (vs : List (List α)) (its : List KnowledgeItem),
      vs.length = its.length →
      (mkPoints uuids c vs its).map QdrantPoint.payload = its
  | _, [], [], _ => rfl
  | _, [], _ :: _, h => by simp at h
  | _, _ :: _, [], h => by simp at h
  | c, v :: vs, it :: its, h => by
    simp only [mkPoints, List.map_cons]
    rw [mkPoints_payload uuids (c + 1) vs its (by simpa using h)]

lemma mkPoints_vector_mem {α : Type} (uuids : Nat → String) :
    ∀ (c : Nat) (vs : List (List α)) (its : List KnowledgeItem) (p : QdrantPoint α),
      p ∈ mkPoints uuids c vs its → p.vector ∈ vs
  | _, [], _, p, h => by simp [mkPoints] at h
  | _, _ :: _, [], p, h => by simp [mkPoints] at h
  | c, v :: vs, it :: its, p, h => by
    rcases List.mem_cons.mp h with rfl | h'
    · exact List.mem_cons_self _ _
    · exact List.mem_cons_of_mem _ (mkPoints_vector_mem uuids (c + 1) vs its p h')


/-! ### One-step equation and per-batch facts for the retry loop -/

lemma tryBatch_succ {α : Type} (svc : Nat → List (List Char) → Option (List (List α)))
    (uuids : Nat → String) (batch : List KnowledgeItem) (fuel : Nat) (st : RunState α) :
    tryBatch svc uuids batch (fuel + 1) st =
      match svc st.callIdx (batch.map createEmbeddingText) with
      | some vecs =>
        if vecs.length ≤ batch.length then
          some
            { callIdx := st.callIdx + 1
              points := st.points ++ mkPoints uuids st.points.length vecs batch
              trace := st.trace ++ [Event.svcCall (batch.map createEmbeddingText)] }
        else
          if fuel = 0 then none
          else
            tryBatch svc uuids batch fuel
              { callIdx := st.callIdx + 1
                points := st.points ++ mkPoints uuids st.points.length vecs batch
                trace := st.trace ++ [Event.svcCall (batch.map createEmbeddingText), Event.retrySleep] }
      | none =>
        if fuel = 0 then none
        else
          tryBatch svc uuids batch fuel
            { callIdx := st.callIdx + 1
              points := st.points
              trace := st.trace ++ [Event.svcCall (batch.map createEmbeddingText), Event.retrySleep] } := rfl

lemma tryBatch_points {α : Type} {svc : Nat → List (List Char) → Option (List (List α))}
    (hLen : LenOk svc) (uuids : Nat → String) (batch : List KnowledgeItem) :
    ∀ (fuel : Nat) (st st1 : RunState α),
      tryBatch svc uuids batch fuel st = some st1 →
      st1.points.map QdrantPoint.payload = st.points.map QdrantPoint.payload ++ batch := by
  intro fuel
  induction fuel with
  | zero => intro st st1 h; exact absurd h (by simp [tryBatch])
  | succ n ih =>
    intro st st1 h
    rw [tryBatch_succ] at h
    cases hsvc : svc st.callIdx (batch.map createEmbeddingText) with
    | some vecs =>
      simp only [hsvc] at h
      have hl : vecs.length = batch.length := by
        rw [hLen _ _ _ hsvc, List.length_map]
      rw [if_pos (le_of_eq hl)] at h
      injection h with h'
      subst h'
      simp only [List.map_append]
      rw [mkPoints_payload uuids _ _ _ hl]
    | none =>
      simp only [hsvc] at h
      cases n with
      | zero => simp at h
      | succ m =>
        rw [if_neg (by omega)] at h
        simpa using ih _ _ h

lemma tryBatch_sleeps {α : Type} (svc : Nat → List (List Char) → Option (List (List α)))
    (uuids : Nat → String) (batch : List KnowledgeItem) :
    ∀ (fuel : Nat) (st st1 : RunState α),
      tryBatch svc uuids batch fuel st = some st1 →
      st1.trace.countP isBatchSleep = st.trace.countP isBatchSleep := by
  intro fuel
  induction fuel with
  | zero => intro st st1 h; exact absurd h (by simp [tryBatch])
  | succ n ih =>
    intro st st1 h
    rw [tryBatch_succ] at h
    cases hsvc : svc st.callIdx (batch.map createEmbeddingText) with
    | some vecs =>
      simp only [hsvc] at h
      by_cases hle : vecs.length ≤ batch.length
      · rw [if_pos hle] at h
        injection h with h'
        subst h'
        exact countBS_call _ _
      · rw [if_neg hle] at h
        cases n with
        | zero => simp at h
        | succ m =>
          rw [if_neg (by omega)] at h
          rw [ih _ _ h]
          exact countBS_retry _ _
    | none =>
      simp only [hsvc] at h
      cases n with
      | zero => simp at h
      | succ m =>
        rw [if_neg (by omega)] at h
        rw [ih _ _ h]
        exact countBS_retry _ _

lemma tryBatch_dim {α : Type} {svc : Nat → List (List Char) → Option (List (List α))}
    (hDim : DimOk svc) (uuids : Nat → String) (batch : List KnowledgeItem) :
    ∀ (fuel : Nat) (st st1 : RunState α),
      tryBatch svc uuids batch fuel st = some st1 →
      (∀ p ∈ st.points, p.vector.length = EMBEDDING_DIMENSIONS) →
      ∀ p ∈ st1.points, p.vector.length = EMBEDDING_DIMENSIONS := by
  intro fuel
  induction fuel with
  | zero => intro st st1 h; exact absurd h (by simp [tryBatch])
  | succ n ih =>
    intro st st1 h hinv
    rw [tryBatch_succ] at h
    cases hsvc : svc st.callIdx (batch.map createEmbeddingText) with
    | some vecs =>
      simp only [hsvc] at h
      have hnew : ∀ p ∈ st.points ++ mkPoints uuids st.points.length vecs batch,
          p.vector.length = EMBEDDING_DIMENSIONS := by
        intro p hp
        rcases List.mem_append.mp hp with hp | hp
        · exact hinv p hp
        · exact hDim _ _ _ hsvc _ (mkPoints_vector_mem uuids _ _ _ p hp)
      by_cases hle : vecs.length ≤ batch.length
      · rw [if_pos hle] at h
        injection h with h'
        subst h'
        exact hnew
      · rw [if_neg hle] at h
        cases n with
        | zero => simp at h
        | succ m =>
          rw [if_neg (by omega)] at h
          exact ih _ _ h hnew
    | none =>
      simp only [hsvc] at h
      cases n with
      | zero => simp at h
      | succ m =>
        rw [if_neg (by omega)] at h
        exact ih _ _ h hinv

lemma tryBatch_good {α : Type} {svc : Nat → List (List Char) → Option (List (List α))}
    (hGood : GoodSvc svc) (uuids : Nat → String) (batch : List KnowledgeItem) (st : RunState α) :
    ∃ vs, vs.length = batch.length ∧
      tryBatch svc uuids batch RETRY_ATTEMPTS st =
        some
          { callIdx := st.callIdx + 1
            points := st.points ++ mkPoints uuids st.points.length vs batch
            trace := st.trace ++ [Event.svcCall (batch.map createEmbeddingText)] } := by
  obtain ⟨vs, hsvc, hlen⟩ := hGood st.callIdx (batch.map createEmbeddingText)
  refine ⟨vs, by simpa using hlen, ?_⟩
  rw [show RETRY_ATTEMPTS = 2 + 1 from rfl, tryBatch_succ]
  simp only [hsvc]
  rw [if_pos (le_of_eq (by rw [hlen, List.length_map]))]

/-! ### The batch loop -/

lemma runBatches_shift {α : Type} (svc : Nat → List (List Char) → Option (List (List α)))
    (uuids : Nat → String) (B : Nat) :
    ∀ (starts : List Nat) (items : List KnowledgeItem) (st : RunState α),
      runBatches svc uuids B items (starts.map (fun i => B + i)) st =
        runBatches svc uuids B (items.drop B) starts st := by
  intro starts
  induction starts with
  | nil => intro items st; rfl
  | cons i rest ih =>
    intro items st
    simp only [List.map_cons, runBatches]
    have hbatch : (items.drop (B + i)).take B = ((items.drop B).drop i).take B := by
      rw [List.drop_drop]
    have hcond : (B + i + B < items.length) = (i + B < (items.drop B).length) := by
      rw [List.length_drop]
      apply propext
      omega
    simp only [hbatch, hcond]
    cases tryBatch svc uuids (((items.drop B).drop i).take B) RETRY_ATTEMPTS st with
    | none => rfl
    | some st1 => exact ih items _

lemma runFrom_nil {α : Type} (svc : Nat → List (List Char) → Option (List (List α)))
    (uuids : Nat → String) (B : Nat) (st : RunState α) :
    runBatches svc uuids B [] (pyRangeStep (List.length ([] : List KnowledgeItem)) B) st =
      some st := rfl

lemma runFrom_none {α : Type} {svc : Nat → List (List Char) → Option (List (List α))}
    {uuids : Nat → String} {B : Nat} (hB : 0 < B) {items : List KnowledgeItem}
    (hne : items ≠ []) {st : RunState α}
    (htb : tryBatch svc uuids (items.take B) RETRY_ATTEMPTS st = none) :
    runBatches svc uuids B items (pyRangeStep items.length B) st = none := by
  rw [pyRangeStep_unfold hB (List.length_pos.mpr hne)]
  simp only [runBatches, List.drop_zero]
  simp only [htb]

lemma runFrom_some {α : Type} {svc : Nat → List (List Char) → Option (List (List α))}
    {uuids : Nat → String} {B : Nat} (hB : 0 < B) {items : List KnowledgeItem}
    (hne : items ≠ []) {st st1 : RunState α}
    (htb : tryBatch svc uuids (items.take B) RETRY_ATTEMPTS st = some st1) :
    runBatches svc uuids B items (pyRangeStep items.length B) st =
      runBatches svc uuids B (items.drop B) (pyRangeStep (items.drop B).length B)
        (if B < items.length
         then { st1 with trace := st1.trace ++ [Event.batchSleep] }
         else st1) := by
  rw [pyRangeStep_unfold hB (List.length_pos.mpr hne)]
  simp only [runBatches, List.drop_zero]
  simp only [htb, Nat.zero_add]
  rw [runBatches_shift, List.length_drop]

lemma run_payload {α : Type} {svc : Nat → List (List Char) → Option (List (List α))}
    (hLen : LenOk svc) (uuids : Nat → String) {B : Nat} (hB : 0 < B) :
    ∀ (N : Nat) (items : List KnowledgeItem), items.length ≤ N →
      ∀ (st st' : RunState α),
        runBatches svc uuids B items (pyRangeStep items.length B) st = some st' →
        st'.points.map QdrantPoint.payload = st.points.map QdrantPoint.payload ++ items := by
  intro N
  induction N with
  | zero =>
    intro items hlen st st' h
    have hitems : items = [] := List.length_eq_zero.mp (Nat.le_zero.mp hlen)
    subst hitems
    rw [runFrom_nil] at h
    injection h with h'
    subst h'
    simp
  | succ n ih =>
    intro items hlen st st' h
    rcases eq_or_ne items [] with rfl | hne
    · rw [runFrom_nil] at h
      injection h with h'
      subst h'
      simp
    · have hpos : 0 < items.length := List.length_pos.mpr hne
      cases htb : tryBatch svc uuids (items.take B) RETRY_ATTEMPTS st with
      | none => rw [runFrom_none hB hne htb] at h; simp at h
      | some st1 =>
        rw [runFrom_some hB hne htb] at h
        have hrec := ih (items.drop B) (by rw [List.length_drop]; omega) _ _ h
        have hstep := tryBatch_points hLen uuids (items.take B) RETRY_ATTEMPTS st st1 htb
        have hpts : (if B < items.length
            then { st1 with trace := st1.trace ++ [Event.batchSleep] } else st1).points
              = st1.points := by
          split <;> rfl
        rw [hpts] at hrec
        rw [hrec, hstep, List.append_assoc, List.take_append_drop]

lemma run_calls {α : Type} {svc : Nat → List (List Char) → Option (List (List α))}
    (hGood : GoodSvc svc) (uuids : Nat → String) {B : Nat} (hB : 0 < B) :
    ∀ (N : Nat) (items : List KnowledgeItem), items.length ≤ N →
      ∀ (st : RunState α), ∃ st',
        runBatches svc uuids B items (pyRangeStep items.length B) st = some st' ∧
        callTexts st'.trace = callTexts st.trace ++ (batchesOf B items).map textsOfBatch := by
  intro N
  induction N with
  | zero =>
    intro items hlen st
    have hitems : items = [] := List.length_eq_zero.mp (Nat.le_zero.mp hlen)
    subst hitems
    exact ⟨st, rfl, by simp [batchesOf_nil]⟩
  | succ n ih =>
    intro items hlen st
    rcases eq_or_ne items [] with rfl | hne
    · exact ⟨st, rfl, by simp [batchesOf_nil]⟩
    · have hpos : 0 < items.length := List.length_pos.mpr hne
      obtain ⟨vs, hvs, htb⟩ := tryBatch_good hGood uuids (items.take B) st
      obtain ⟨st', hrun, hct⟩ := ih (items.drop B) (by rw [List.length_drop]; omega)
        (if B < items.length
         then { callIdx := st.callIdx + 1
                points := st.points ++ mkPoints uuids st.points.length vs (items.take B)
                trace := st.trace ++ [Event.svcCall ((items.take B).map createEmbeddingText)]
                  ++ [Event.batchSleep] }
         else { callIdx := st.callIdx + 1
                points := st.points ++ mkPoints uuids st.points.length vs (items.take B)
                trace := st.trace ++ [Event.svcCall ((items.take B).map createEmbeddingText)] })
      refine ⟨st', ?_, ?_⟩
      · rw [runFrom_some hB hne htb]
        exact hrun
      · rw [hct, batchesOf_cons hB hne, List.map_cons]
        have hc2 : callTexts
            (if B < items.length
             then { callIdx := st.callIdx + 1
                    points := st.points ++ mkPoints uuids st.points.length vs (items.take B)
                    trace := st.trace ++ [Event.svcCall ((items.take B).map createEmbeddingText)]
                      ++ [Event.batchSleep] }
             else { callIdx := st.callIdx + 1
                    points := st.points ++ mkPoints uuids st.points.length vs (items.take B)
                    trace := st.trace ++ [Event.svcCall ((items.take B).map createEmbeddingText)] }
              : RunState α).trace
            = callTexts st.trace ++ [(items.take B).map createEmbeddingText] := by
          split
          · rw [callTexts_append, callTexts_append, callTexts_bs, List.append_nil, callTexts_call]
          · rw [callTexts_append, callTexts_call]
        rw [hc2, List.append_assoc]
        rfl

lemma run_sleeps {α : Type} (svc : Nat → List (List Char) → Option (List (List α)))
    (uuids : Nat → String) {B : Nat} (hB : 0 < B) :
    ∀ (N : Nat) (items : List KnowledgeItem), items.length ≤ N →
      ∀ (st st' : RunState α),
        runBatches svc uuids B items (pyRangeStep items.length B) st = some st' →
        st'.trace.countP isBatchSleep =
          st.trace.countP isBatchSleep + ((items.length + B - 1) / B - 1) := by
  intro N
  induction N with
  | zero =>
    intro items hlen st st' h
    have hitems : items = [] := List.length_eq_zero.mp (Nat.le_zero.mp hlen)
    subst hitems
    rw [runFrom_nil] at h
    injection h with h'
    subst h'
    have h0 : (([] : List KnowledgeItem).length + B - 1) / B - 1 = 0 := by
      rw [List.length_nil, Nat.div_eq_of_lt (by omega : 0 + B - 1 < B)]
    rw [h0, Nat.add_zero]
  | succ n ih =>
    intro items hlen st st' h
    rcases eq_or_ne items [] with rfl | hne
    · rw [runFrom_nil] at h
      injection h with h'
      subst h'
      have h0 : (([] : List KnowledgeItem).length + B - 1) / B - 1 = 0 := by
        rw [List.length_nil, Nat.div_eq_of_lt (by omega : 0 + B - 1 < B)]
      rw [h0, Nat.add_zero]
    · have hpos : 0 < items.length := List.length_pos.mpr hne
      cases htb : tryBatch svc uuids (items.take B) RETRY_ATTEMPTS st with
      | none => rw [runFrom_none hB hne htb] at h; simp at h
      | some st1 =>
        rw [runFrom_some hB hne htb] at h
        have h1 := tryBatch_sleeps svc uuids (items.take B) RETRY_ATTEMPTS st st1 htb
        have hrecd := ceil_div_rec hB hpos
        by_cases hlt : B < items.length
        · rw [if_pos hlt] at h
          have hrec := ih (items.drop B) (by rw [List.length_drop]; omega) _ _ h
          rw [List.length_drop] at hrec
          have hbs : ({ st1 with trace := st1.trace ++ [Event.batchSleep] }
              : RunState α).trace.countP isBatchSleep
              = st1.trace.countP isBatchSleep + 1 := countBS_bs _
          rw [hrec, hbs, h1]
          have hp2 : 0 < (items.length - B + B - 1) / B := ceil_div_pos hB (by omega)
          revert hrecd hp2
          generalize (items.length + B - 1) / B = e
          generalize (items.length - B + B - 1) / B = f
          intro hrecd hp2
          omega
        · rw [if_neg hlt] at h
          have hrec := ih (items.drop B) (by rw [List.length_drop]; omega) _ _ h
          rw [List.length_drop] at hrec
          rw [hrec, h1]
          have hz : items.length - B = 0 := by omega
          rw [hz] at hrecd ⊢
          have h0 : ((0 : Nat) + B - 1) / B = 0 := Nat.div_eq_of_lt (by omega)
          rw [h0] at hrecd ⊢
          rw [hrecd]

lemma run_dim {α : Type} {svc : Nat → List (List Char) → Option (List (List α))}
    (hDim : DimOk svc) (uuids : Nat → String) (B : Nat) :
    ∀ (starts : List Nat) (items : List KnowledgeItem) (st st' : RunState α),
      runBatches svc uuids B items starts st = some st' →
      (∀ p ∈ st.points, p.vector.length = EMBEDDING_DIMENSIONS) →
      ∀ p ∈ st'.points, p.vector.length = EMBEDDING_DIMENSIONS := by
  intro starts
  induction starts with
  | nil =>
    intro items st st' h hinv
    simp only [runBatches] at h
    injection h with h'
    subst h'
    exact hinv
  | cons i rest ih =>
    intro items st st' h hinv
    simp only [runBatches] at h
    cases htb : tryBatch svc uuids ((items.drop i).take B) RETRY_ATTEMPTS st with
    | none =>
      simp only [htb] at h
      exact Option.noConfusion h
    | some st1 =>
      simp only [htb] at h
      have h1 := tryBatch_dim hDim uuids _ _ _ _ htb hinv
      have h2 : ∀ p ∈ (if i + B < items.length
          then { st1 with trace := st1.trace ++ [Event.batchSleep] } else st1).points,
          p.vector.length = EMBEDDING_DIMENSIONS := by
        split
        · exact h1
        · exact h1
      exact ih items _ _ h h2

lemma LenOk_of_GoodSvc {α : Type} {svc : Nat → List (List Char) → Option (List (List α))}
    (h : GoodSvc svc) : LenOk svc := by
  intro n ts vs hv
  obtain ⟨vs', hv', hl'⟩ := h n ts
  rw [hv] at hv'
  injection hv' with h'
  rw [h']
  exact hl'

/-! ### Concrete oracles and runs used by witnesses -/

/-- A fixed uuid stream. -/
def uuidsW : Nat → String := fun _ => ""

/-- A well-behaved service answering one (empty) vector per request string. -/
def svcW : Nat → List (List Char) → Option (List (List Int)) :=
  fun _ ts => some (ts.map (fun _ => []))

/-- A well-behaved service answering one 1536-dimensional vector per string. -/
def svcDimW : Nat → List (List Char) → Option (List (List Int)) :=
  fun _ ts => some (ts.map (fun _ => List.replicate EMBEDDING_DIMENSIONS (0 : Int)))

/-- The final state of the one-item run against `svcW`. -/
def stW1 : RunState Int := (generateEmbeddings svcW uuidsW [kW]).getD ⟨0, [], []⟩

/-- The final state of the one-item run against `svcDimW`. -/
def stWD : RunState Int := (generateEmbeddings svcDimW uuidsW [kW]).getD ⟨0, [], []⟩

/-- The initial run state. -/
def stC3 : RunState Int := ⟨0, [], []⟩

lemma svcW_lenOk : LenOk svcW := by
  intro n ts vs h
  injection h with h'
  rw [← h', List.length_map]

lemma svcW_good : GoodSvc svcW :=
  fun _ ts => ⟨ts.map (fun _ => []), rfl, by rw [List.length_map]⟩

lemma svcDimW_dimOk : DimOk svcDimW := by
  intro n ts vs h v hv
  injection h with h'
  rw [← h'] at hv
  obtain ⟨a, _, rfl⟩ := List.mem_map.mp hv
  exact List.length_replicate _ _

/-! ### Claims about the batch embedder -/

/-- C1: for every run in which the embedder finishes (every batch's call
eventually succeeds within its retry budget — no fatal abort) against a
service honouring the one-vector-per-string contract, the output points
correspond one-to-one, in original input order, to the input items, each
point's payload being the copy of the originating item's fields. -/
theorem claim_C1 {α : Type} (svc : Nat → List (List Char) → Option (List (List α)))
    (uuids : Nat → String) (items : List KnowledgeItem) (st : RunState α)
    (hLen : LenOk svc) (h : generateEmbeddings svc uuids items = some st) :
    st.points.map QdrantPoint.payload = items := by
  simp only [generateEmbeddings] at h
  have := run_payload hLen uuids (by decide : 0 < BATCH_SIZE) items.length items le_rfl _ _ h
  simpa using this

/-- C1 witness: a one-item run against a well-behaved service. -/
theorem c1_witness : stW1.points.map QdrantPoint.payload = [kW] :=
  claim_C1 svcW uuidsW [kW] stW1 svcW_lenOk rfl

/-- C2: the loop partitions the items into contiguous batches of at most
`BATCH_SIZE` items whose concatenation in call order is the original list; a
run against an always-succeeding service makes exactly one call per batch, in
batch order (hence `ceil(N/B)` calls, `0` for `N = 0`), and produces one
point per item. -/
theorem claim_C2 {α : Type} (svc : Nat → List (List Char) → Option (List (List α)))
    (uuids : Nat → String) (items : List KnowledgeItem) (hGood : GoodSvc svc) :
    (batchesOf BATCH_SIZE items).flatten = items ∧
    (batchesOf BATCH_SIZE items).all (fitsBatch BATCH_SIZE) = true ∧
    (batchesOf BATCH_SIZE items).length = (items.length + BATCH_SIZE - 1) / BATCH_SIZE ∧
    runCallTexts (generateEmbeddings svc uuids items) =
      some ((batchesOf BATCH_SIZE items).map textsOfBatch) ∧
    runPointCount (generateEmbeddings svc uuids items) = some items.length := by
  have hB : 0 < BATCH_SIZE := by decide
  obtain ⟨st', hrun, hct⟩ := run_calls hGood uuids hB items.length items le_rfl ⟨0, [], []⟩
  refine ⟨batchesOf_join hB items.length items le_rfl,
    batchesOf_small hB items.length items le_rfl,
    batchesOf_length hB items.length items le_rfl, ?_, ?_⟩
  · simp only [runCallTexts, generateEmbeddings, hrun, Option.map_some']
    simpa using hct
  · have hp := run_payload (LenOk_of_GoodSvc hGood) uuids hB items.length items le_rfl _ _ hrun
    simp only [runPointCount, generateEmbeddings, hrun, Option.map_some']
    have := congrArg List.length hp
    simpa using this

/-- C2 witness: the batching facts evaluated on a one-item run. -/
theorem c2_witness :
    (batchesOf BATCH_SIZE [kW]).flatten = [kW] ∧
    (batchesOf BATCH_SIZE [kW]).all (fitsBatch BATCH_SIZE) = true ∧
    (batchesOf BATCH_SIZE [kW]).length = (([kW] : List KnowledgeItem).length + BATCH_SIZE - 1) / BATCH_SIZE ∧
    runCallTexts (generateEmbeddings svcW uuidsW [kW]) =
      some ((batchesOf BATCH_SIZE [kW]).map textsOfBatch) ∧
    runPointCount (generateEmbeddings svcW uuidsW [kW]) = some ([kW] : List KnowledgeItem).length :=
  claim_C2 svcW uuidsW [kW] svcW_good

/-- C3: a per-batch service call that fails `RETRY_ATTEMPTS - 1` times and
then succeeds yields exactly the same output points as one that succeeds
immediately; a service whose calls all fail makes the whole run abort with
exit code 1 and no output file. -/
theorem claim_C3 :
    (∀ {α : Type} (uuids : Nat → String) (st : RunState α) (batch : List KnowledgeItem)
        (vs : List (List α)), vs.length = batch.length →
      (tryBatch (svcFailsThenOk st.callIdx vs) uuids batch RETRY_ATTEMPTS st).map RunState.points =
        (tryBatch (svcAlways vs) uuids batch RETRY_ATTEMPTS st).map RunState.points ∧
      (tryBatch (svcAlways vs) uuids batch RETRY_ATTEMPTS st).isSome = true) ∧
    (∀ {α : Type} (uuids : Nat → String) (items : List KnowledgeItem), items ≠ [] →
      runPipeline (svcNone (α := α)) uuids items = none ∧
      runExit (svcNone (α := α)) uuids items = 1) := by
  constructor
  · intro α uuids st batch vs hvs
    constructor
    · simp [tryBatch, svcFailsThenOk, svcAlways, RETRY_ATTEMPTS, hvs]
    · simp [tryBatch, svcAlways, RETRY_ATTEMPTS, hvs]
  · intro α uuids items hne
    have hfail : ∀ (st : RunState α) (batch : List KnowledgeItem),
        tryBatch (svcNone (α := α)) uuids batch RETRY_ATTEMPTS st = none := by
      intro st batch
      simp [tryBatch, svcNone, RETRY_ATTEMPTS]
    have hgen : generateEmbeddings (svcNone (α := α)) uuids items = none := by
      simp only [generateEmbeddings]
      exact runFrom_none (by decide) hne (hfail _ _)
    exact ⟨by simp [runPipeline, hgen], by simp [runExit, hgen]⟩

/-- C3 witness: the retry equivalence and the all-fail abort at concrete
inputs. -/
theorem c3_witness :
    ((tryBatch (svcFailsThenOk 0 ([[]] : List (List Int))) uuidsW [kW] RETRY_ATTEMPTS stC3).map
        RunState.points =
      (tryBatch (svcAlways ([[]] : List (List Int))) uuidsW [kW] RETRY_ATTEMPTS stC3).map
        RunState.points ∧
     (tryBatch (svcAlways ([[]] : List (List Int))) uuidsW [kW] RETRY_ATTEMPTS stC3).isSome
        = true) ∧
    (runPipeline (svcNone (α := Int)) uuidsW [kW] = none ∧
     runExit (svcNone (α := Int)) uuidsW [kW] = 1) :=
  ⟨claim_C3.1 uuidsW stC3 [kW] [[]] rfl, claim_C3.2 uuidsW [kW] (List.cons_ne_nil _ _)⟩

/-- C6: if the service returns vectors of the requested dimensionality, every
point of a successful run has a vector of length
`EMBEDDING_DIMENSIONS = 1536`. -/
theorem claim_C6 {α : Type} (svc : Nat → List (List Char) → Option (List (List α)))
    (uuids : Nat → String) (items : List KnowledgeItem) (st : RunState α)
    (hDim : DimOk svc) (h : generateEmbeddings svc uuids items = some st) :
    pointsDimOk st = true := by
  simp only [generateEmbeddings] at h
  have hall := run_dim hDim uuids BATCH_SIZE _ items _ _ h (by intro p hp; simp at hp)
  simp only [pointsDimOk, List.all_eq_true]
  intro p hp
  simp [hall p hp]

/-- C6 witness: a one-item run against a 1536-dimensional service. -/
theorem c6_witness : pointsDimOk stWD = true :=
  claim_C6 svcDimW uuidsW [kW] stWD svcDimW_dimOk rfl

/-- C9: in every successful run the inter-batch 0.5 s sleep happens exactly
`ceil(N/B) - 1` times (so never after the last batch, zero times for at most
one batch, including when `N` is an exact multiple of `B`). -/
theorem claim_C9 {α : Type} (svc : Nat → List (List Char) → Option (List (List α)))
    (uuids : Nat → String) (items : List KnowledgeItem) (st : RunState α)
    (h : generateEmbeddings svc uuids items = some st) :
    st.trace.countP isBatchSleep = (items.length + BATCH_SIZE - 1) / BATCH_SIZE - 1 := by
  simp only [generateEmbeddings] at h
  have := run_sleeps svc uuids (by decide : 0 < BATCH_SIZE) items.length items le_rfl _ _ h
  simpa using this

/-- C9 witness: a concrete one-item run sleeps zero times between batches. -/
theorem c9_witness :
    stW1.trace.countP isBatchSleep =
      (([kW] : List KnowledgeItem).length + BATCH_SIZE - 1) / BATCH_SIZE - 1 :=
  claim_C9 svcW uuidsW [kW] stW1 rfl

end GenEmb
